import Mathlib

/-!
Verification of the metric-evaluation module `src/bolt/eval.py`.

The module computes scalar metrics for a linear model over a labelled
dataset: `errorrate`, `rmse`, `cost` and the dispatcher `error`.  Python
floats are idealised as the type `Fl α`: an exact finite value drawn from a
linear ordered field `α`, together with the special values `inf`, `ninf`
and `nan`, with arithmetic following IEEE 754 as Python and NumPy implement
it.  Finite values are carried exactly (no rounding), which is the level at
which the module is specified.  Lazy iterators are modelled as lists, and a
Python exception is modelled as the `Except.error` branch of the result.
-/

namespace Bolt

/-- Idealised Python float values over a field of exact finite values. -/
inductive Fl (α : Type) where
  | fin (x : α)
  | inf
  | ninf
  | nan
deriving DecidableEq

namespace Fl

variable {α : Type} [LinearOrderedField α]

/-- Float multiplication, Python semantics: nan absorbs, inf times zero is
nan, otherwise infinities follow the sign rules. -/
def mul : Fl α → Fl α → Fl α
  | nan, _ => nan
  | _, nan => nan
  | fin a, fin b => fin (a * b)
  | fin a, inf => if 0 < a then inf else if a < 0 then ninf else nan
  | fin a, ninf => if 0 < a then ninf else if a < 0 then inf else nan
  | inf, fin b => if 0 < b then inf else if b < 0 then ninf else nan
  | inf, inf => inf
  | inf, ninf => ninf
  | ninf, fin b => if 0 < b then ninf else if b < 0 then inf else nan
  | ninf, inf => ninf
  | ninf, ninf => inf

/-- Float addition, Python semantics: nan absorbs, inf plus ninf is nan. -/
def add : Fl α → Fl α → Fl α
  | nan, _ => nan
  | _, nan => nan
  | fin a, fin b => fin (a + b)
  | fin _, inf => inf
  | fin _, ninf => ninf
  | inf, fin _ => inf
  | inf, inf => inf
  | inf, ninf => nan
  | ninf, fin _ => ninf
  | ninf, inf => nan
  | ninf, ninf => ninf

/-- Float subtraction, Python semantics: nan absorbs, inf minus inf is nan. -/
def sub : Fl α → Fl α → Fl α
  | nan, _ => nan
  | _, nan => nan
  | fin a, fin b => fin (a - b)
  | fin _, inf => ninf
  | fin _, ninf => inf
  | inf, fin _ => inf
  | inf, inf => nan
  | inf, ninf => inf
  | ninf, fin _ => ninf
  | ninf, inf => ninf
  | ninf, ninf => nan

/-- The Python comparison x <= y; every comparison with nan is false. -/
def leb : Fl α → Fl α → Bool
  | nan, _ => false
  | _, nan => false
  | fin a, fin b => decide (a ≤ b)
  | fin _, inf => true
  | fin _, ninf => false
  | inf, inf => true
  | inf, fin _ => false
  | inf, ninf => false
  | ninf, _ => true

/-- The Python comparison x < y; every comparison with nan is false. -/
def ltb : Fl α → Fl α → Bool
  | nan, _ => false
  | _, nan => false
  | fin a, fin b => decide (a < b)
  | fin _, inf => true
  | fin _, ninf => false
  | inf, _ => false
  | ninf, inf => true
  | ninf, fin _ => true
  | ninf, ninf => false

/-- The numpy predicate isinf: true on both infinities. -/
def isinf : Fl α → Bool
  | inf => true
  | ninf => true
  | _ => false

/-- The numpy predicate isnan. -/
def isnan : Fl α → Bool
  | nan => true
  | _ => false

/-- Whether the value is finite (neither infinite nor nan). -/
def isfin : Fl α → Bool
  | fin _ => true
  | _ => false

/-- Division of a float by a machine integer; used only with a positive
divisor, where the Python semantics is exact division of the finite part. -/
def divNat : Fl α → ℕ → Fl α
  | fin a, n => fin (a / (n : α))
  | inf, _ => inf
  | ninf, _ => ninf
  | nan, _ => nan

/-- Value-preserving embedding of exact-rational floats into real floats. -/
def toR : Fl ℚ → Fl ℝ
  | fin q => fin (q : ℝ)
  | inf => inf
  | ninf => ninf
  | nan => nan

end Fl

/-- The numpy square root on idealised floats: nan below zero and on ninf
and nan, inf on inf, and the exact real square root on a finite value. -/
noncomputable def flSqrt : Fl ℚ → Fl ℝ
  | .fin q => if q < 0 then .nan else .fin (Real.sqrt (q : ℝ))
  | .inf => .inf
  | .ninf => .nan
  | .nan => .nan

/-- A Dataset capability: the two aligned lazy traversals, iterinstances
and iterlabels, modelled as lists. -/
structure Dataset (ι : Type) where
  iterinstances : List ι
  iterlabels : List (Fl ℚ)

/-- A LinearModel capability: predict maps the instance sequence to a
prediction sequence. -/
structure LinearModel (ι : Type) where
  predict : List ι → List (Fl ℚ)

/-- Modelled from the spec: the classes bolt.Classification and
bolt.Regression of the bolt package are not under src/; the spec describes
a loss function as tagged with a category used only for metric dispatch,
so the two isinstance checks of the dispatcher are modelled as a closed
tag, with Other standing for a loss that is an instance of neither class. -/
inductive Category where
  | Classification
  | Regression
  | Other
deriving DecidableEq

/-- Modelled from the spec: a loss-function capability, a per-example cost
map together with the category tag that only the dispatcher consults. -/
structure LossFunction where
  loss : Fl ℚ → Fl ℚ → Fl ℚ
  category : Category

/-- The two failure modes of the module: the implicit ZeroDivisionError of
the two averaged metrics and the explicit ValueError of the dispatcher. -/
inductive EvalError where
  | divByZero
  | invalidArgument (msg : String)
deriving DecidableEq

/-- Decidable equality of operation results, so that the operations can
be evaluated at concrete inputs. -/
instance {ε α : Type} [DecidableEq ε] [DecidableEq α] :
    DecidableEq (Except ε α) := fun x y =>
  match x, y with
  | Except.error e, Except.error f =>
      if h : e = f then isTrue (h ▸ rfl)
      else isFalse fun hx => h (Except.error.inj hx)
  | Except.error _, Except.ok _ => isFalse fun hx => Except.noConfusion hx
  | Except.ok _, Except.error _ => isFalse fun hx => Except.noConfusion hx
  | Except.ok a, Except.ok b =>
      if h : a = b then isTrue (h ▸ rfl)
      else isFalse fun hx => h (Except.ok.inj hx)

/-- The paired stream izip(model.predict(ds.iterinstances()),
ds.iterlabels()) that every operation of the module consumes. -/
def pairsOf {ι : Type} (model : LinearModel ι) (ds : Dataset ι) :
    List (Fl ℚ × Fl ℚ) :=
  List.zip (model.predict ds.iterinstances) ds.iterlabels

/-- The loop condition of errorrate on one pair: with z = p * y, the pair
is an error when np.isinf(p) or np.isnan(p) or z <= 0. -/
def isErr (p y : Fl ℚ) : Bool :=
  p.isinf || p.isnan || Fl.leb (Fl.mul p y) (Fl.fin 0)

/-- The loop body of errorrate, accumulating the pair (err, n). -/
def errStep (acc : ℕ × ℕ) (py : Fl ℚ × Fl ℚ) : ℕ × ℕ :=
  (if isErr py.1 py.2 then acc.1 + 1 else acc.1, acc.2 + 1)

/-- The function errorrate of src/bolt/eval.py: fold the loop body over
the paired stream, then return (err / n) * 100.0, the division raising
ZeroDivisionError when n = 0. -/
def errorrate {ι : Type} (model : LinearModel ι) (ds : Dataset ι) :
    Except EvalError (Fl ℚ) :=
  let r := (pairsOf model ds).foldl errStep (0, 0)
  if r.2 = 0 then Except.error EvalError.divByZero
  else Except.ok (Fl.mul (Fl.fin ((r.1 : ℚ) / (r.2 : ℚ))) (Fl.fin 100))

/-- The squared difference (p - y)**2.0 of one pair. -/
def sqOf (py : Fl ℚ × Fl ℚ) : Fl ℚ :=
  Fl.mul (Fl.sub py.1 py.2) (Fl.sub py.1 py.2)

/-- The loop body of rmse: err += (p - y)**2.0 and n += 1. -/
def rmseStep (acc : Fl ℚ × ℕ) (py : Fl ℚ × Fl ℚ) : Fl ℚ × ℕ :=
  (Fl.add acc.1 (sqOf py), acc.2 + 1)

/-- The function rmse of src/bolt/eval.py: fold the loop body over the
paired stream, divide by n (ZeroDivisionError when n = 0), then take
np.sqrt. -/
noncomputable def rmse {ι : Type} (model : LinearModel ι) (ds : Dataset ι) :
    Except EvalError (Fl ℝ) :=
  let r := (pairsOf model ds).foldl rmseStep (Fl.fin 0, 0)
  if r.2 = 0 then Except.error EvalError.divByZero
  else Except.ok (flSqrt (Fl.divNat r.1 r.2))

/-- The function cost of src/bolt/eval.py: fold cost += loss.loss(p, y)
over the paired stream, starting from 0. -/
def cost {ι : Type} (model : LinearModel ι) (ds : Dataset ι)
    (l : LossFunction) : Fl ℚ :=
  (pairsOf model ds).foldl (fun c py => Fl.add c (l.loss py.1 py.2)) (Fl.fin 0)

/-- The function error of src/bolt/eval.py: dispatch on the category of
the loss function, delegating to errorrate for Classification and to rmse
for Regression, and raising ValueError otherwise. -/
noncomputable def error {ι : Type} (model : LinearModel ι) (ds : Dataset ι)
    (l : LossFunction) : Except EvalError (Fl ℝ) :=
  match l.category with
  | Category.Classification => (errorrate model ds).map Fl.toR
  | Category.Regression => rmse model ds
  | Category.Other =>
      Except.error (EvalError.invalidArgument
        "lm.loss: either Regression or Classification loss expected")

/-- The number of pairs of a paired stream that the errorrate loop counts
as errors. -/
def errCount (l : List (Fl ℚ × Fl ℚ)) : ℕ :=
  l.countP (fun py => isErr py.1 py.2)

/-- The sum of squared differences over a paired stream, reduced from 0. -/
def sqErr (l : List (Fl ℚ × Fl ℚ)) : Fl ℚ :=
  (l.map sqOf).foldl Fl.add (Fl.fin 0)

/-- Concrete dataset of the spec scenario: four instances with labels
1, -1, 1, -1. -/
def exDs : Dataset Unit :=
  { iterinstances := [(), (), (), ()]
    iterlabels := [Fl.fin 1, Fl.fin (-1), Fl.fin 1, Fl.fin (-1)] }

/-- Concrete model of the spec scenario: predictions 0.5, 0.5, -0.5,
-0.5, giving two misclassified pairs out of four. -/
def exModel : LinearModel Unit :=
  { predict := fun _ => [Fl.fin (1 / 2), Fl.fin (1 / 2),
      Fl.fin (-(1 / 2)), Fl.fin (-(1 / 2))] }

/-- Concrete model predicting every label of exDs exactly. -/
def eqModel : LinearModel Unit :=
  { predict := fun _ => [Fl.fin 1, Fl.fin (-1), Fl.fin 1, Fl.fin (-1)] }

/-- Concrete one-instance dataset with label 0. -/
def cexDs : Dataset Unit :=
  { iterinstances := [()], iterlabels := [Fl.fin 0] }

/-- Concrete model producing a nan prediction. -/
def cexModel : LinearModel Unit :=
  { predict := fun _ => [Fl.nan] }

/-- Concrete model producing a positive-infinity prediction. -/
def infModel : LinearModel Unit :=
  { predict := fun _ => [Fl.inf] }

/-- Concrete one-instance dataset with label +1. -/
def infDs : Dataset Unit :=
  { iterinstances := [()], iterlabels := [Fl.fin 1] }

/-- Concrete empty dataset. -/
def emptyDs : Dataset Unit :=
  { iterinstances := [], iterlabels := [] }

/-- Concrete model returning no prediction on the empty instance stream. -/
def emptyModel : LinearModel Unit :=
  { predict := fun xs => xs.map (fun _ => Fl.fin 0) }

/-- Concrete model yielding three predictions for the two labels of
mismDs: the surplus prediction is ignored by the zip. -/
def mismModel : LinearModel Unit :=
  { predict := fun _ => [Fl.fin 1, Fl.fin 2, Fl.fin 3] }

/-- Concrete dataset with two labels, paired with mismModel above. -/
def mismDs : Dataset Unit :=
  { iterinstances := [()], iterlabels := [Fl.fin 1, Fl.fin 0] }

/-- Concrete squared-difference loss tagged Regression. -/
def exLoss : LossFunction :=
  { loss := fun p y => Fl.mul (Fl.sub p y) (Fl.sub p y)
    category := Category.Regression }

/-- Concrete loss whose category is neither Classification nor
Regression. -/
def otherLoss : LossFunction :=
  { loss := fun p y => Fl.mul (Fl.sub p y) (Fl.sub p y)
    category := Category.Other }

/-! ### Helper lemmas -/

theorem foldl_errStep (l : List (Fl ℚ × Fl ℚ)) : ∀ e n : ℕ,
    l.foldl errStep (e, n) = (e + errCount l, n + l.length) := by
  induction l with
  | nil => intro e n; simp [errCount]
  | cons py l ih =>
    intro e n
    by_cases h : isErr py.1 py.2
    · have hs : errStep (e, n) py = (e + 1, n + 1) := by simp [errStep, h]
      have hc : errCount (py :: l) = errCount l + 1 := by simp [errCount, h]
      rw [List.foldl_cons, hs, ih, hc, List.length_cons]
      simp only [Prod.mk.injEq]
      omega
    · have hs : errStep (e, n) py = (e, n + 1) := by simp [errStep, h]
      have hc : errCount (py :: l) = errCount l := by simp [errCount, h]
      rw [List.foldl_cons, hs, ih, hc, List.length_cons]
      simp only [Prod.mk.injEq, true_and]
      omega

theorem foldl_rmseStep (l : List (Fl ℚ × Fl ℚ)) : ∀ (a : Fl ℚ) (n : ℕ),
    l.foldl rmseStep (a, n) = ((l.map sqOf).foldl Fl.add a, n + l.length) := by
  induction l with
  | nil => intro a n; simp
  | cons py l ih =>
    intro a n
    simp only [List.foldl_cons, rmseStep, ih, List.map_cons, List.length_cons]
    exact Prod.ext rfl (by omega)

theorem Fl.add_nan_right {α : Type} [LinearOrderedField α] (x : Fl α) :
    Fl.add x Fl.nan = Fl.nan := by
  cases x <;> rfl

theorem Fl.sub_nan_left {α : Type} [LinearOrderedField α] (y : Fl α) :
    Fl.sub Fl.nan y = Fl.nan := by
  cases y <;> rfl

theorem foldl_add_nan {α : Type} [LinearOrderedField α]
    (l : List (Fl α)) : l.foldl Fl.add Fl.nan = Fl.nan := by
  induction l with
  | nil => rfl
  | cons x l ih =>
    have h : Fl.add Fl.nan x = Fl.nan := by cases x <;> rfl
    simpa [h] using ih

theorem foldl_add_of_nan_mem {α : Type} [LinearOrderedField α]
    (l : List (Fl α)) (a : Fl α) (h : Fl.nan ∈ l) :
    l.foldl Fl.add a = Fl.nan := by
  induction l generalizing a with
  | nil => cases h
  | cons x l ih =>
    rcases List.mem_cons.mp h with hx | hl
    · subst hx
      simpa [Fl.add_nan_right] using foldl_add_nan l
    · exact ih _ hl

theorem errorrate_eq {ι : Type} (model : LinearModel ι) (ds : Dataset ι) :
    errorrate model ds =
      if (pairsOf model ds).length = 0 then Except.error EvalError.divByZero
      else Except.ok (Fl.fin
        (((errCount (pairsOf model ds) : ℚ) /
          ((pairsOf model ds).length : ℚ)) * 100)) := by
  unfold errorrate
  rw [foldl_errStep]
  simp [Fl.mul]

theorem rmse_eq {ι : Type} (model : LinearModel ι) (ds : Dataset ι) :
    rmse model ds =
      if (pairsOf model ds).length = 0 then Except.error EvalError.divByZero
      else Except.ok (flSqrt (Fl.divNat (sqErr (pairsOf model ds))
        (pairsOf model ds).length)) := by
  unfold rmse
  rw [foldl_rmseStep]
  simp [sqErr]

theorem errorrate_error_elim {ι : Type} (model : LinearModel ι)
    (ds : Dataset ι) (e : EvalError)
    (h : errorrate model ds = Except.error e) : e = EvalError.divByZero := by
  rw [errorrate_eq] at h
  by_cases hn : (pairsOf model ds).length = 0
  · rw [if_pos hn] at h
    exact (Except.error.inj h).symm
  · rw [if_neg hn] at h
    cases h

theorem rmse_error_elim {ι : Type} (model : LinearModel ι)
    (ds : Dataset ι) (e : EvalError)
    (h : rmse model ds = Except.error e) : e = EvalError.divByZero := by
  rw [rmse_eq] at h
  by_cases hn : (pairsOf model ds).length = 0
  · rw [if_pos hn] at h
    exact (Except.error.inj h).symm
  · rw [if_neg hn] at h
    cases h

theorem Fl.isfin_elim {α : Type} [LinearOrderedField α] (x : Fl α)
    (h : Fl.isfin x = true) : ∃ a, x = Fl.fin a := by
  cases x with
  | fin a => exact ⟨a, rfl⟩
  | inf => simp [Fl.isfin] at h
  | ninf => simp [Fl.isfin] at h
  | nan => simp [Fl.isfin] at h

theorem foldl_add_fin_sq (l : List (Fl ℚ × Fl ℚ)) :
    ∀ c : ℚ, (∀ py ∈ l, Fl.isfin py.1 = true ∧ Fl.isfin py.2 = true) →
    ∃ s : ℚ, (l.map sqOf).foldl Fl.add (Fl.fin c) = Fl.fin (c + s) ∧ 0 ≤ s ∧
      (s = 0 ↔ ∀ py ∈ l, py.1 = py.2) := by
  induction l with
  | nil =>
    intro c _
    exact ⟨0, by simp, le_refl 0, by simp⟩
  | cons py l ih =>
    intro c h
    obtain ⟨h1, h2⟩ := h py (List.mem_cons_self py l)
    obtain ⟨a, ha⟩ := Fl.isfin_elim py.1 h1
    obtain ⟨b, hb⟩ := Fl.isfin_elim py.2 h2
    have hsq : sqOf py = Fl.fin ((a - b) * (a - b)) := by
      rw [sqOf, ha, hb]; rfl
    obtain ⟨s, hsum, hs0, hiff⟩ := ih (c + (a - b) * (a - b))
      (fun q hq => h q (List.mem_cons_of_mem _ hq))
    have hd : 0 ≤ (a - b) * (a - b) := mul_self_nonneg (a - b)
    refine ⟨(a - b) * (a - b) + s, ?_, by linarith, ?_⟩
    · rw [List.map_cons, List.foldl_cons, hsq]
      have hadd : Fl.add (Fl.fin c) (Fl.fin ((a - b) * (a - b)))
          = Fl.fin (c + (a - b) * (a - b)) := rfl
      rw [hadd, hsum, add_assoc]
    · constructor
      · intro hz
        have hd0 : (a - b) * (a - b) = 0 := by linarith
        have hs0q : s = 0 := by linarith
        have hab : a = b := sub_eq_zero.mp (mul_self_eq_zero.mp hd0)
        intro q hq
        rcases List.mem_cons.mp hq with hq1 | hq2
        · rw [hq1, ha, hb, hab]
        · exact (hiff.mp hs0q) q hq2
      · intro hall
        have hab : py.1 = py.2 := hall py (List.mem_cons_self py l)
        have hab2 : a = b := by
          rw [ha, hb] at hab
          exact Fl.fin.inj hab
        have hs0q : s = 0 :=
          hiff.mpr (fun q hq => hall q (List.mem_cons_of_mem _ hq))
        rw [hab2, hs0q]
        simp

/-! ### The claims -/

/-- C1: for every non-empty aligned dataset, errorrate returns
100.0 * (err / n), where n is the number of pairs consumed and err counts
the pairs whose product z = p * y satisfies z <= 0, or whose prediction is
infinite or nan; and a pair with a finite prediction and z > 0 is never
counted as an error. -/
theorem errorrate_formula {ι : Type} (model : LinearModel ι) (ds : Dataset ι)
    (h : pairsOf model ds ≠ []) :
    errorrate model ds = Except.ok (Fl.fin (100 *
      (((pairsOf model ds).countP (fun py =>
          Fl.leb (Fl.mul py.1 py.2) (Fl.fin 0) || py.1.isinf || py.1.isnan) : ℚ) /
        ((pairsOf model ds).length : ℚ)))) ∧
    ∀ p y : Fl ℚ,
      ((!(p.isinf || p.isnan) && Fl.ltb (Fl.fin 0) (Fl.mul p y)) && isErr p y)
        = false := by
  have hn : (pairsOf model ds).length ≠ 0 :=
    fun hx => h (List.length_eq_zero.mp hx)
  constructor
  · have hfun : (fun py : Fl ℚ × Fl ℚ =>
        Fl.leb (Fl.mul py.1 py.2) (Fl.fin 0) || py.1.isinf || py.1.isnan)
        = (fun py : Fl ℚ × Fl ℚ => isErr py.1 py.2) := by
      funext py
      cases hx : Fl.leb (Fl.mul py.1 py.2) (Fl.fin 0) <;>
        cases hi : (py.1).isinf <;> cases hv : (py.1).isnan <;>
          simp [isErr, hx, hi, hv]
    have hpred : ((pairsOf model ds).countP (fun py =>
        Fl.leb (Fl.mul py.1 py.2) (Fl.fin 0) || py.1.isinf || py.1.isnan))
        = errCount (pairsOf model ds) := by
      simp only [errCount]
      rw [hfun]
    rw [hpred, errorrate_eq, if_neg hn]
    exact congrArg (fun q : ℚ => Except.ok (Fl.fin q)) (mul_comm _ _)
  · intro p y
    cases p with
    | fin a =>
      cases hz : Fl.mul (Fl.fin a) y with
      | fin zv =>
        by_cases hv : 0 < zv
        · have hlb : Fl.leb (Fl.fin zv) (Fl.fin 0) = false := by
            simp [Fl.leb]
            linarith
          simp [isErr, Fl.isinf, Fl.isnan, hz, hlb]
        · have hlt : Fl.ltb (Fl.fin 0) (Fl.fin zv) = false := by
            simp [Fl.ltb, hv]
          simp [hz, hlt]
      | inf => simp [isErr, Fl.isinf, Fl.isnan, hz, Fl.leb]
      | ninf => simp [hz, Fl.ltb]
      | nan => simp [hz, Fl.ltb]
    | inf => simp [Fl.isinf]
    | ninf => simp [Fl.isinf]
    | nan => simp [Fl.isnan]

/-- Witness for C1 at the concrete scenario of the spec: four pairs with
two sign disagreements. -/
theorem errorrate_formula_witness :
    errorrate exModel exDs = Except.ok (Fl.fin (100 *
      (((pairsOf exModel exDs).countP (fun py =>
          Fl.leb (Fl.mul py.1 py.2) (Fl.fin 0) || py.1.isinf || py.1.isnan) : ℚ) /
        ((pairsOf exModel exDs).length : ℚ)))) :=
  (errorrate_formula exModel exDs (by decide)).1

/-- C2: for every non-empty aligned dataset, rmse returns the square root
of sum((p - y)^2) / n over the n pairs consumed, and a nan prediction is
not special-cased: it propagates into the result. -/
theorem rmse_formula {ι : Type} (model : LinearModel ι) (ds : Dataset ι)
    (h : pairsOf model ds ≠ []) :
    rmse model ds = Except.ok (flSqrt (Fl.divNat (sqErr (pairsOf model ds))
      (pairsOf model ds).length)) ∧
    ((∃ py ∈ pairsOf model ds, py.1 = Fl.nan) →
      rmse model ds = Except.ok Fl.nan) := by
  have hn : (pairsOf model ds).length ≠ 0 :=
    fun hx => h (List.length_eq_zero.mp hx)
  constructor
  · rw [rmse_eq, if_neg hn]
  · rintro ⟨py, hmem, hnan⟩
    have hsq : sqOf py = Fl.nan := by
      rw [sqOf, hnan, Fl.sub_nan_left]
      rfl
    have hserr : sqErr (pairsOf model ds) = Fl.nan := by
      rw [sqErr]
      exact foldl_add_of_nan_mem _ _ (List.mem_map.mpr ⟨py, hmem, hsq⟩)
    rw [rmse_eq, if_neg hn, hserr]
    rfl

/-- Witness for C2 at the concrete scenario of the spec. -/
theorem rmse_formula_witness :
    rmse exModel exDs = Except.ok (flSqrt (Fl.divNat (sqErr (pairsOf exModel exDs))
      (pairsOf exModel exDs).length)) :=
  (rmse_formula exModel exDs (by decide)).1

/-- C3: on a dataset yielding zero pairs, errorrate and rmse raise the
division-by-zero fault, while cost returns 0 without failing. -/
theorem empty_dataset_behaviour {ι : Type} (model : LinearModel ι)
    (ds : Dataset ι) (h : pairsOf model ds = []) :
    errorrate model ds = Except.error EvalError.divByZero ∧
    rmse model ds = Except.error EvalError.divByZero ∧
    ∀ l : LossFunction, cost model ds l = Fl.fin 0 := by
  refine ⟨?_, ?_, ?_⟩
  · rw [errorrate_eq, h]
    rfl
  · rw [rmse_eq, h]
    rfl
  · intro l
    unfold cost
    rw [h]
    rfl

/-- Witness for C3 at the concrete empty dataset. -/
theorem empty_dataset_behaviour_witness :
    errorrate emptyModel emptyDs = Except.error EvalError.divByZero ∧
    rmse emptyModel emptyDs = Except.error EvalError.divByZero ∧
    cost emptyModel emptyDs exLoss = Fl.fin 0 :=
  ⟨(empty_dataset_behaviour emptyModel emptyDs (by decide)).1,
   (empty_dataset_behaviour emptyModel emptyDs (by decide)).2.1,
   (empty_dataset_behaviour emptyModel emptyDs (by decide)).2.2 exLoss⟩

/-- C4: for every aligned dataset, the empty one included, cost returns
the reduction, started at 0, of loss.loss(p, y) over all consumed pairs,
with no normalization by the pair count, and it never inspects the
category tag of the loss function. -/
theorem cost_formula {ι : Type} (model : LinearModel ι) (ds : Dataset ι)
    (l : LossFunction) :
    cost model ds l = ((pairsOf model ds).map
      (fun py => l.loss py.1 py.2)).foldl Fl.add (Fl.fin 0) ∧
    ∀ c : Category,
      cost model ds { loss := l.loss, category := c } = cost model ds l := by
  constructor
  · show (pairsOf model ds).foldl
      (fun c py => Fl.add c (l.loss py.1 py.2)) (Fl.fin 0) = _
    rw [List.foldl_map]
  · intro c
    rfl

/-- C5: error with a Classification-tagged loss returns exactly the
errorrate result (embedded value-preservingly into real floats), with a
Regression-tagged loss exactly the rmse result, and the cost map of the
loss function is never consulted. -/
theorem error_dispatch {ι : Type} (model : LinearModel ι) (ds : Dataset ι)
    (f g : Fl ℚ → Fl ℚ → Fl ℚ) (c : Category) :
    error model ds { loss := f, category := Category.Classification }
      = (errorrate model ds).map Fl.toR ∧
    error model ds { loss := f, category := Category.Regression }
      = rmse model ds ∧
    error model ds { loss := f, category := c }
      = error model ds { loss := g, category := c } := by
  refine ⟨rfl, rfl, ?_⟩
  cases c <;> rfl

/-- C6: error fails with the InvalidArgument-class error exactly when the
category of the supplied loss is neither Classification nor Regression,
and the message then names the two expected categories. -/
theorem error_invalid_argument {ι : Type} (model : LinearModel ι)
    (ds : Dataset ι) (l : LossFunction) :
    ((∃ msg, error model ds l = Except.error (EvalError.invalidArgument msg))
      ↔ (l.category ≠ Category.Classification ∧
         l.category ≠ Category.Regression)) ∧
    ∀ msg, error model ds l = Except.error (EvalError.invalidArgument msg) →
      (∃ s t, msg = s ++ "Classification" ++ t) ∧
      (∃ s t, msg = s ++ "Regression" ++ t) := by
  have hcls : ∀ msg, l.category = Category.Classification →
      error model ds l ≠ Except.error (EvalError.invalidArgument msg) := by
    intro msg hc habs
    rw [error] at habs
    · cases herr : errorrate model ds with
      | ok a =>
        rw [hc, herr] at habs
        simp [Except.map] at habs
      | error e =>
        have he : e = EvalError.divByZero := errorrate_error_elim _ _ _ herr
        rw [hc, herr, he] at habs
        simp [Except.map] at habs
  have hreg : ∀ msg, l.category = Category.Regression →
      error model ds l ≠ Except.error (EvalError.invalidArgument msg) := by
    intro msg hc habs
    rw [error] at habs
    cases herr : rmse model ds with
    | ok a =>
      rw [hc, herr] at habs
      simp at habs
    | error e =>
      have he : e = EvalError.divByZero := rmse_error_elim _ _ _ herr
      rw [hc, herr, he] at habs
      simp at habs
  have hother : ∀ msg,
      error model ds l = Except.error (EvalError.invalidArgument msg) →
      l.category = Category.Other ∧
      msg = "lm.loss: either Regression or Classification loss expected" := by
    intro msg hmsg
    cases hcat : l.category with
    | Classification => exact absurd hmsg (hcls msg hcat)
    | Regression => exact absurd hmsg (hreg msg hcat)
    | Other =>
      refine ⟨rfl, ?_⟩
      rw [error, hcat] at hmsg
      exact (EvalError.invalidArgument.inj (Except.error.inj hmsg)).symm
  constructor
  · constructor
    · rintro ⟨msg, hmsg⟩
      rw [(hother msg hmsg).1]
      exact ⟨by simp, by simp⟩
    · rintro ⟨h1, h2⟩
      have hc : l.category = Category.Other := by
        cases hcat : l.category
        · exact absurd hcat h1
        · exact absurd hcat h2
        · rfl
      exact ⟨"lm.loss: either Regression or Classification loss expected",
        by rw [error, hc]⟩
  · intro msg hmsg
    rw [(hother msg hmsg).2]
    constructor
    · exact ⟨"lm.loss: either Regression or ", " loss expected", by rfl⟩
    · exact ⟨"lm.loss: either ", " or Classification loss expected", by rfl⟩

/-- Witness for C6: a loss tagged outside the two categories makes error
fail with the InvalidArgument-class error. -/
theorem error_invalid_argument_witness :
    ∃ msg, error exModel exDs otherLoss
      = Except.error (EvalError.invalidArgument msg) :=
  (error_invalid_argument exModel exDs otherLoss).1.mpr (by decide)

/-- C7 counterexample: on a non-empty dataset holding one nan prediction,
rmse returns nan, and nan is not greater than or equal to zero under the
float comparison, so the claim fails as stated for datasets with
non-finite values. -/
theorem rmse_nonneg_cex :
    rmse cexModel cexDs = Except.ok Fl.nan ∧
    Fl.leb (Fl.fin (0 : ℝ)) Fl.nan = false ∧
    pairsOf cexModel cexDs ≠ [] := by
  refine ⟨rfl, rfl, by decide⟩

/-- C7 amended: for every non-empty dataset all of whose predictions and
labels are finite, rmse returns a finite value r with 0 ≤ r, and r = 0
exactly when every prediction equals its label. -/
theorem rmse_nonneg_of_finite {ι : Type} (model : LinearModel ι)
    (ds : Dataset ι) (hne : pairsOf model ds ≠ [])
    (hfin : ∀ py ∈ pairsOf model ds,
      Fl.isfin py.1 = true ∧ Fl.isfin py.2 = true) :
    ∃ r : ℝ, rmse model ds = Except.ok (Fl.fin r) ∧ 0 ≤ r ∧
      (r = 0 ↔ ∀ py ∈ pairsOf model ds, py.1 = py.2) := by
  obtain ⟨s, hsum, hs0, hiff⟩ := foldl_add_fin_sq (pairsOf model ds) 0 hfin
  have hn : (pairsOf model ds).length ≠ 0 :=
    fun hx => hne (List.length_eq_zero.mp hx)
  have hnpos : 0 < ((pairsOf model ds).length : ℚ) := by
    exact_mod_cast Nat.pos_of_ne_zero hn
  have hsq : sqErr (pairsOf model ds) = Fl.fin s := by
    rw [sqErr, hsum, zero_add]
  have hq0 : 0 ≤ s / ((pairsOf model ds).length : ℚ) :=
    div_nonneg hs0 (le_of_lt hnpos)
  have hdiv : Fl.divNat (sqErr (pairsOf model ds)) (pairsOf model ds).length
      = Fl.fin (s / ((pairsOf model ds).length : ℚ)) := by
    rw [hsq]
    rfl
  refine ⟨Real.sqrt ((s / ((pairsOf model ds).length : ℚ) : ℚ) : ℝ),
    ?_, Real.sqrt_nonneg _, ?_⟩
  · rw [rmse_eq, if_neg hn, hdiv, flSqrt]
    rw [if_neg (not_lt.mpr hq0)]
  · constructor
    · intro hr
      have hle : ((s / ((pairsOf model ds).length : ℚ) : ℚ) : ℝ) ≤ 0 :=
        Real.sqrt_eq_zero'.mp hr
      have hleq : s / ((pairsOf model ds).length : ℚ) ≤ 0 := by
        exact_mod_cast hle
      have hdiv0 : s / ((pairsOf model ds).length : ℚ) = 0 :=
        le_antisymm hleq hq0
      have hs0q : s = 0 := by
        rcases div_eq_zero_iff.mp hdiv0 with hz | hz
        · exact hz
        · exact absurd hz (ne_of_gt hnpos)
      exact hiff.mp hs0q
    · intro hall
      have hs0q : s = 0 := hiff.mpr hall
      rw [hs0q]
      simp

/-- Witness for the amended C7 on a dataset predicted exactly. -/
theorem rmse_nonneg_of_finite_witness :
    ∃ r : ℝ, rmse eqModel exDs = Except.ok (Fl.fin r) ∧ 0 ≤ r ∧
      (r = 0 ↔ ∀ py ∈ pairsOf eqModel exDs, py.1 = py.2) :=
  rmse_nonneg_of_finite eqModel exDs (by decide) (by decide)

/-- C8: a positive-infinity prediction paired with label +1 is counted as
an error although its product with the label is positive infinity, hence
positive: on the one-pair dataset the error rate is 100. -/
theorem errorrate_counts_inf :
    isErr Fl.inf (Fl.fin 1) = true ∧
    Fl.mul (Fl.inf : Fl ℚ) (Fl.fin 1) = Fl.inf ∧
    Fl.ltb (Fl.fin (0 : ℚ)) (Fl.mul Fl.inf (Fl.fin 1)) = true ∧
    errorrate infModel infDs = Except.ok (Fl.fin 100) := by
  refine ⟨by decide, by decide, by decide, ?_⟩
  rw [errorrate_eq]
  have h1 : pairsOf infModel infDs = [(Fl.inf, Fl.fin 1)] := rfl
  have h2 : errCount [((Fl.inf : Fl ℚ), Fl.fin 1)] = 1 := by decide
  rw [h1, h2]
  norm_num

/-- C9: the errorrate of a non-empty dataset is a finite value between 0
and 100, since the error count never exceeds the number of pairs. -/
theorem errorrate_bounds {ι : Type} (model : LinearModel ι) (ds : Dataset ι)
    (h : pairsOf model ds ≠ []) :
    ∃ q : ℚ, errorrate model ds = Except.ok (Fl.fin q) ∧ 0 ≤ q ∧ q ≤ 100 := by
  have hn : (pairsOf model ds).length ≠ 0 :=
    fun hx => h (List.length_eq_zero.mp hx)
  have hnpos : 0 < ((pairsOf model ds).length : ℚ) := by
    exact_mod_cast Nat.pos_of_ne_zero hn
  refine ⟨((errCount (pairsOf model ds) : ℚ) /
      ((pairsOf model ds).length : ℚ)) * 100,
    by rw [errorrate_eq, if_neg hn], ?_, ?_⟩
  · have h0 : (0 : ℚ) ≤ (errCount (pairsOf model ds) : ℚ) := by positivity
    have := div_nonneg h0 (le_of_lt hnpos)
    linarith
  · have hle : (errCount (pairsOf model ds) : ℚ)
        ≤ ((pairsOf model ds).length : ℚ) := by
      have := List.countP_le_length
        (fun py : Fl ℚ × Fl ℚ => isErr py.1 py.2) (l := pairsOf model ds)
      simp only [errCount]
      exact_mod_cast this
    have hone : (errCount (pairsOf model ds) : ℚ) /
        ((pairsOf model ds).length : ℚ) ≤ 1 := (div_le_one hnpos).mpr hle
    linarith

/-- Witness for C9 at the concrete scenario of the spec. -/
theorem errorrate_bounds_witness :
    ∃ q : ℚ, errorrate exModel exDs = Except.ok (Fl.fin q) ∧ 0 ≤ q ∧ q ≤ 100 :=
  errorrate_bounds exModel exDs (by decide)

/-- C10: every operation consumes exactly min(number of predictions,
number of labels) pairs: the loop counters of errorrate and rmse equal
that minimum, the paired stream reduced by cost and error has that
length, and on a non-empty paired stream a surplus on either side causes
no failure. -/
theorem pairs_consumed_min {ι : Type} (model : LinearModel ι)
    (ds : Dataset ι) :
    ((pairsOf model ds).foldl errStep (0, 0)).2
      = min (model.predict ds.iterinstances).length ds.iterlabels.length ∧
    ((pairsOf model ds).foldl rmseStep (Fl.fin 0, 0)).2
      = min (model.predict ds.iterinstances).length ds.iterlabels.length ∧
    (pairsOf model ds).length
      = min (model.predict ds.iterinstances).length ds.iterlabels.length ∧
    (pairsOf model ds ≠ [] →
      (∃ v, errorrate model ds = Except.ok v) ∧
      ∃ w, rmse model ds = Except.ok w) := by
  have hlen : (pairsOf model ds).length
      = min (model.predict ds.iterinstances).length ds.iterlabels.length := by
    rw [pairsOf, List.length_zip]
  refine ⟨?_, ?_, hlen, ?_⟩
  · rw [foldl_errStep]
    simpa using hlen
  · rw [foldl_rmseStep]
    simpa using hlen
  · intro hne
    have hn : (pairsOf model ds).length ≠ 0 :=
      fun hx => hne (List.length_eq_zero.mp hx)
    constructor
    · exact ⟨Fl.fin (((errCount (pairsOf model ds)) : ℚ) /
          ((pairsOf model ds).length : ℚ) * 100),
        by rw [errorrate_eq, if_neg hn]⟩
    · exact ⟨flSqrt (Fl.divNat (sqErr (pairsOf model ds))
          (pairsOf model ds).length),
        by rw [rmse_eq, if_neg hn]⟩

/-- Witness for C10 on a mismatched pair of streams: three predictions
against two labels consume two pairs and cause no failure. -/
theorem pairs_consumed_min_witness :
    ((pairsOf mismModel mismDs).foldl errStep (0, 0)).2
      = min (mismModel.predict mismDs.iterinstances).length
          mismDs.iterlabels.length ∧
    ∃ v, errorrate mismModel mismDs = Except.ok v :=
  ⟨(pairs_consumed_min mismModel mismDs).1,
   ((pairs_consumed_min mismModel mismDs).2.2.2 (by decide)).1⟩

end Bolt
